import Mathlib

set_option maxRecDepth 16000

/-!
Verification of the Admin Assassin clinical-scribe core (src/app.py): the
decoded JSON data model, the generation block (validation, completion call,
fence-stripping, json.loads, session-store update), the sidebar history list,
and the presenter (HTML escaping, placeholder rendering, risk banner/badge).
-/

-- ## Decoded JSON data model

/-- A decoded JSON value, as produced by Python json.loads on the fragment of
JSON exercised by the Clinical Result schema: null, booleans, strings, arrays
and objects (JSON numbers do not occur in the schema and are not modelled).
An object models a Python dict as a key-value list without duplicate keys. -/
inductive JValue where
  | null
  | jbool : Bool → JValue
  | jstr : String → JValue
  | jarr : List JValue → JValue
  | jobj : List (String × JValue) → JValue
deriving Repr

/-- Python dict lookup d.get(k): the unique binding for k, none when absent. -/
def jget (kvs : List (String × JValue)) (k : String) : Option JValue :=
  (kvs.find? (fun p => p.1 == k)).map (fun p => p.2)

/-- Python dict lookup with a default, d.get(k, dflt). -/
def pyGetD (kvs : List (String × JValue)) (k : String) (dflt : JValue) : JValue :=
  (jget kvs k).getD dflt

/-- Python dict insertion d[k] = v: overwrites an existing binding in place,
appends a new binding at the end. -/
def dinsert : List (String × JValue) → String → JValue → List (String × JValue)
  | [], k, v => [(k, v)]
  | (k0, v0) :: t, k, v => if k0 = k then (k0, v) :: t else (k0, v0) :: dinsert t k v

/-- Building a Python dict from a member list by insertion in order
(later duplicate keys overwrite earlier ones, as json.loads does). -/
def mkDict (ms : List (String × JValue)) : List (String × JValue) :=
  ms.foldl (fun acc p => dinsert acc p.1 p.2) []

/-- Python truthiness of an optional decoded value: None, False and the empty
string, list and dict are falsy. -/
def pyTruthy : Option JValue → Bool
  | none => false
  | some .null => false
  | some (.jbool b) => b
  | some (.jstr s) => !s.data.isEmpty
  | some (.jarr xs) => !xs.isEmpty
  | some (.jobj kvs) => !kvs.isEmpty

/-- Whether k occurs among the keys of a key-value list. -/
def keyMem (k : String) : List (String × JValue) → Bool
  | [] => false
  | (k0, _) :: t => k0 == k || keyMem k t

mutual

/-- Every object nested inside the value has a duplicate-free key list
(always true of a value decoded from a Python dict). -/
def nodupKeysV : JValue → Bool
  | .null => true
  | .jbool _ => true
  | .jstr _ => true
  | .jarr xs => nodupKeysA xs
  | .jobj kvs => nodupKeysO kvs

/-- nodupKeysV on every element of a list. -/
def nodupKeysA : List JValue → Bool
  | [] => true
  | x :: t => nodupKeysV x && nodupKeysA t

/-- Duplicate-free keys at this level and nodupKeysV on every value. -/
def nodupKeysO : List (String × JValue) → Bool
  | [] => true
  | (k, v) :: t => !keyMem k t && nodupKeysV v && nodupKeysO t

end

-- ## Character and string helpers

/-- The four whitespace characters of the JSON grammar (as json.loads skips). -/
def jsonWs (c : Char) : Bool := c == ' ' || c == '\t' || c == '\n' || c == '\r'

/-- Python str.strip() whitespace (the ASCII whitespace characters). -/
def pyWs (c : Char) : Bool :=
  c == ' ' || c == '\t' || c == '\n' || c == '\r' || c == '\x0b' || c == '\x0c'

/-- Skip leading JSON whitespace. -/
def skipWs (cs : List Char) : List Char := cs.dropWhile jsonWs

/-- Python str.strip(): drop leading and trailing whitespace. -/
def pyStripL (cs : List Char) : List Char :=
  ((cs.dropWhile pyWs).reverse.dropWhile pyWs).reverse

/-- Python str.strip() on strings. -/
def pyStrip (s : String) : String := String.mk (pyStripL s.data)

/-- Python s.split(sep, 1)[1] for sep a newline: the text after the first
newline; none models the IndexError the [1] index raises when there is no
newline at all. -/
def splitAfterNl : List Char → Option (List Char)
  | [] => none
  | c :: t => if c = '\n' then some t else splitAfterNl t

/-- Index of the first occurrence of pat in hay, if any (overlaps allowed;
only used with count 1, where Python agrees). -/
def firstOcc (pat : List Char) : List Char → Option Nat
  | [] => if pat.isEmpty then some 0 else none
  | c :: t => if pat.isPrefixOf (c :: t) then some 0 else (firstOcc pat t).map (fun i => i + 1)

/-- Python s.rsplit(pat, 1)[0]: the text before the last occurrence of pat,
or the whole text when pat does not occur. -/
def rsplitBefore (hay pat : List Char) : List Char :=
  match firstOcc pat.reverse hay.reverse with
  | none => hay
  | some i => hay.take (hay.length - pat.length - i)

/-- Substring test on character lists. -/
def containsSub : List Char → List Char → Bool
  | [], pat => pat.isEmpty
  | c :: t, pat => pat.isPrefixOf (c :: t) || containsSub t pat

/-- Substring test on strings. -/
def strContains (hay pat : String) : Bool := containsSub hay.data pat.data

/-- The apostrophe character (U+0027). -/
def apos : Char := Char.ofNat 39

/-- The left curly-brace character. -/
def lbrace : Char := Char.ofNat 123

/-- The right curly-brace character. -/
def rbrace : Char := Char.ofNat 125

/-- The backtick character. -/
def btick : Char := Char.ofNat 96

/-- html.escape of one character (quote=True: ampersand, angle brackets and
both quote characters are replaced by entities). -/
def escHtmlChar (c : Char) : List Char :=
  if c = '&' then "&amp;".data
  else if c = '<' then "&lt;".data
  else if c = '>' then "&gt;".data
  else if c = '"' then "&quot;".data
  else if c = apos then "&#x27;".data
  else [c]

/-- html.escape on character lists. -/
def htmlEscapeL : List Char → List Char
  | [] => []
  | c :: t => escHtmlChar c ++ htmlEscapeL t

/-- html.escape(s, quote=True), as applied by the safe helper in the source. -/
def htmlEscape (s : String) : String := String.mk (htmlEscapeL s.data)

mutual

/-- Python repr() of a decoded JSON value, used by str() on containers.
String repr is approximated by apostrophe wrapping without inner escaping,
which is exact for the texts exercised by the claims. -/
def pyRepr : JValue → List Char
  | .null => "None".data
  | .jbool true => "True".data
  | .jbool false => "False".data
  | .jstr s => apos :: s.data ++ [apos]
  | .jarr xs => '[' :: pyReprA xs ++ [']']
  | .jobj kvs => lbrace :: pyReprO kvs ++ [rbrace]

/-- Comma-separated reprs of list elements. -/
def pyReprA : List JValue → List Char
  | [] => []
  | [x] => pyRepr x
  | x :: y :: t => pyRepr x ++ ',' :: ' ' :: pyReprA (y :: t)

/-- Comma-separated "key: value" reprs of dict members. -/
def pyReprO : List (String × JValue) → List Char
  | [] => []
  | [(k, v)] => (apos :: k.data ++ [apos]) ++ ':' :: ' ' :: pyRepr v
  | (k, v) :: m :: t =>
      ((apos :: k.data ++ [apos]) ++ ':' :: ' ' :: pyRepr v) ++ ',' :: ' ' :: pyReprO (m :: t)

end

/-- Python str() of a decoded JSON value (a string is taken verbatim,
other values through repr). -/
def pyStr : JValue → String
  | .jstr s => s
  | v => String.mk (pyRepr v)

/-- safe from src/app.py lines 50-54: escape HTML entities in AI-generated
text; Python None (a JSON null value, or an absent key looked up without a
default) renders as the placeholder glyph. -/
def safe : Option JValue → String
  | none => "—"
  | some .null => "—"
  | some v => htmlEscape (pyStr v)

-- ## JSON serialization (the stub-provider formatters of spec section 8)

/-- Value of a hexadecimal digit character, if it is one. -/
def hexVal (c : Char) : Option Nat :=
  if 48 ≤ c.toNat ∧ c.toNat ≤ 57 then some (c.toNat - 48)
  else if 97 ≤ c.toNat ∧ c.toNat ≤ 102 then some (c.toNat - 87)
  else if 65 ≤ c.toNat ∧ c.toNat ≤ 70 then some (c.toNat - 55)
  else none

/-- Lower-case hexadecimal digit character for a value below 16. -/
def hexDigit (n : Nat) : Char := if n < 10 then Char.ofNat (48 + n) else Char.ofNat (87 + n)

/-- JSON escaping of one string character: quote and backslash escaped,
control characters as a backslash-u00XX sequence, everything else literal. -/
def escJsonChar (c : Char) : List Char :=
  if c = '"' then ['\\', '"']
  else if c = '\\' then ['\\', '\\']
  else if c.toNat < 32 then ['\\', 'u', '0', '0', hexDigit (c.toNat / 16), hexDigit (c.toNat % 16)]
  else [c]

/-- JSON escaping of the characters of a string. -/
def serStr : List Char → List Char
  | [] => []
  | c :: t => escJsonChar c ++ serStr t

mutual

/-- Canonical JSON serialization of a decoded value: the body of the stub formatter
format_as_plain_json from spec section 8. No inter-token whitespace. -/
def ser : JValue → List Char
  | .null => "null".data
  | .jbool true => "true".data
  | .jbool false => "false".data
  | .jstr s => '"' :: serStr s.data ++ ['"']
  | .jarr xs => '[' :: serArr xs ++ [']']
  | .jobj kvs => lbrace :: serObj kvs ++ [rbrace]

/-- Comma-separated serializations of array elements. -/
def serArr : List JValue → List Char
  | [] => []
  | [x] => ser x
  | x :: y :: t => ser x ++ ',' :: serArr (y :: t)

/-- Comma-separated "key":value serializations of object members. -/
def serObj : List (String × JValue) → List Char
  | [] => []
  | [(k, v)] => '"' :: serStr k.data ++ '"' :: ':' :: ser v
  | (k, v) :: m :: t =>
      ('"' :: serStr k.data ++ '"' :: ':' :: ser v) ++ ',' :: serObj (m :: t)

end

/-- Modelled from the spec: format_as_plain_json, the stub completion
provider plain JSON rendering of a Clinical Result (spec section 8; the stub
formatters exist only in the testable properties of the spec, not in src/). -/
def format_as_plain_json (v : JValue) : String := String.mk (ser v)

/-- Modelled from the spec: format_as_fenced_json wraps the plain JSON in a
triple-backtick fence whose opening line carries a language tag (spec
sections 4.3 and 8). -/
def format_as_fenced_json (v : JValue) : String :=
  String.mk ("```json\n".data ++ ser v ++ '\n' :: "```".data)

-- ## JSON decoding (model of Python json.loads on the fragment of the schema)

/-- Parse a JSON string body (after the opening quote) up to the closing
quote, resolving the escape sequences json.loads accepts; unescaped control
characters are rejected (strict mode), as are surrogate code units. -/
def parseStrBody : List Char → Option (List Char × List Char)
  | [] => none
  | c :: rest =>
    if c = '"' then some ([], rest)
    else if c = '\\' then
      match rest with
      | [] => none
      | e :: rest2 =>
        if e = '"' then (parseStrBody rest2).map (fun p => ('"' :: p.1, p.2))
        else if e = '\\' then (parseStrBody rest2).map (fun p => ('\\' :: p.1, p.2))
        else if e = '/' then (parseStrBody rest2).map (fun p => ('/' :: p.1, p.2))
        else if e = 'b' then (parseStrBody rest2).map (fun p => ('\x08' :: p.1, p.2))
        else if e = 'f' then (parseStrBody rest2).map (fun p => ('\x0c' :: p.1, p.2))
        else if e = 'n' then (parseStrBody rest2).map (fun p => ('\n' :: p.1, p.2))
        else if e = 'r' then (parseStrBody rest2).map (fun p => ('\r' :: p.1, p.2))
        else if e = 't' then (parseStrBody rest2).map (fun p => ('\t' :: p.1, p.2))
        else if e = 'u' then
          match rest2 with
          | h1 :: h2 :: h3 :: h4 :: rest6 =>
            match hexVal h1, hexVal h2, hexVal h3, hexVal h4 with
            | some a, some b, some c2, some d =>
              let n := ((a * 16 + b) * 16 + c2) * 16 + d
              if n < 55296 ∨ 57344 ≤ n then
                (parseStrBody rest6).map (fun p => (Char.ofNat n :: p.1, p.2))
              else none
            | _, _, _, _ => none
          | _ => none
        else none
    else if c.toNat < 32 then none
    else (parseStrBody rest).map (fun p => (c :: p.1, p.2))

mutual

/-- Fuel-indexed JSON value parser: skip whitespace, dispatch on the first
character. Sufficient fuel is supplied by json_loads below. -/
def parseVal : Nat → List Char → Option (JValue × List Char)
  | 0, _ => none
  | fuel + 1, cs =>
    match skipWs cs with
    | [] => none
    | c :: rest =>
      if c = 'n' then
        match rest with
        | 'u' :: 'l' :: 'l' :: r => some (.null, r)
        | _ => none
      else if c = 't' then
        match rest with
        | 'r' :: 'u' :: 'e' :: r => some (.jbool true, r)
        | _ => none
      else if c = 'f' then
        match rest with
        | 'a' :: 'l' :: 's' :: 'e' :: r => some (.jbool false, r)
        | _ => none
      else if c = '"' then
        (parseStrBody rest).map (fun p => (.jstr (String.mk p.1), p.2))
      else if c = '[' then
        match skipWs rest with
        | [] => none
        | d :: r =>
          if d = ']' then some (.jarr [], r)
          else (parseItems fuel (d :: r)).map (fun p => (.jarr p.1, p.2))
      else if c = lbrace then
        match skipWs rest with
        | [] => none
        | d :: r =>
          if d = rbrace then some (.jobj [], r)
          else (parseMembers fuel (d :: r)).map (fun p => (.jobj (mkDict p.1), p.2))
      else none

/-- Parse the comma-separated elements of a non-empty array, consuming the
closing bracket. -/
def parseItems : Nat → List Char → Option (List JValue × List Char)
  | 0, _ => none
  | fuel + 1, cs =>
    match parseVal fuel cs with
    | none => none
    | some (v, r) =>
      match skipWs r with
      | [] => none
      | d :: r2 =>
        if d = ',' then (parseItems fuel r2).map (fun p => (v :: p.1, p.2))
        else if d = ']' then some ([v], r2)
        else none

/-- Parse the comma-separated members of a non-empty object, consuming the
closing brace; returns the raw member list in order. -/
def parseMembers : Nat → List Char → Option (List (String × JValue) × List Char)
  | 0, _ => none
  | fuel + 1, cs =>
    match skipWs cs with
    | [] => none
    | c :: rest =>
      if c = '"' then
        match parseStrBody rest with
        | none => none
        | some (k, r2) =>
          match skipWs r2 with
          | [] => none
          | d :: r3 =>
            if d = ':' then
              match parseVal fuel r3 with
              | none => none
              | some (v, r4) =>
                match skipWs r4 with
                | [] => none
                | e :: r5 =>
                  if e = ',' then
                    (parseMembers fuel r5).map (fun p => ((String.mk k, v) :: p.1, p.2))
                  else if e = rbrace then some ([(String.mk k, v)], r5)
                  else none
            else none
      else none

end

/-- json.loads: decode a complete JSON document, tolerating surrounding
whitespace; none models json.JSONDecodeError (raised on invalid syntax,
truncation, or trailing data). A JSON array or any other value is decoded
successfully: there is no top-level-object check. -/
def json_loads (cs : List Char) : Option JValue :=
  match parseVal (cs.length + 1) cs with
  | none => none
  | some (v, r) => if skipWs r = [] then some v else none

-- ## Response Parser (generation block, src/app.py lines 661-665)

/-- Failure modes of the response-handling code: malformed models
json.JSONDecodeError (caught by the dedicated handler), indexErr models the
IndexError raised by raw.split("\n", 1)[1] when the stripped text starts with
a fence marker but contains no newline (caught by the generic handler). -/
inductive ParseFail where
  | malformed
  | indexErr
deriving Repr, DecidableEq

/-- The text handed to json.loads by the generation block, when the
fence-stripping stage does not raise: strip, and if the result starts with a
triple backtick, drop through the first newline and cut before the last
triple backtick. -/
def decodedText (rawText : String) : Option (List Char) :=
  let raw := pyStripL rawText.data
  if "```".data.isPrefixOf raw then
    (splitAfterNl raw).map (fun t => rsplitBefore t "```".data)
  else some raw

/-- The response-parsing stage of the generation block: strip, optional
fence removal, then json.loads. -/
def parseResponse (rawText : String) : Except ParseFail JValue :=
  let raw := pyStripL rawText.data
  if "```".data.isPrefixOf raw then
    match splitAfterNl raw with
    | none => .error .indexErr
    | some afterNl =>
      match json_loads (rsplitBefore afterNl "```".data) with
      | none => .error .malformed
      | some v => .ok v
  else
    match json_loads raw with
    | none => .error .malformed
    | some v => .ok v

-- ## Session Store and the submit flow (src/app.py lines 539-542, 644-675)

/-- A history entry: a time field holding HH:MM and a result field. -/
structure SessionEntry where
  time : String
  result : JValue

/-- The per-session state: st.session_state.history and
st.session_state.last_result. -/
structure AppState where
  history : List SessionEntry
  last_result : Option JValue

/-- The session-state initialisation: empty history, no current result. -/
def initialState : AppState := { history := [], last_result := none }

/-- The errors a submit invocation can surface. The first two are the
ValidationError cases (missing credential, blank transcript); completionFailed
covers the authentication and transport exceptions of the anthropic client;
the last two are the parse failures. -/
inductive SubmitError where
  | noApiKey
  | emptyTranscript
  | completionFailed : String → SubmitError
  | malformedResponse
  | fenceIndexError
deriving Repr, DecidableEq

/-- Outcome of a submit invocation. -/
inductive SubmitOutcome where
  | ok : JValue → SubmitOutcome
  | err : SubmitError → SubmitOutcome

/-- The generation block (src/app.py lines 644-675): credential and
transcript validation, the completion call, response parsing, and on success
the session-store update (set last_result, append a history entry). Returns
the new state, the outcome, and the number of completion calls made; the
completion argument stands for the reply of the provider (ok raw text, or error
for a client exception). -/
def submit (s : AppState) (api_key transcript : String)
    (completion : Except String String) (now : String) :
    AppState × SubmitOutcome × Nat :=
  if api_key = "" then (s, .err .noApiKey, 0)
  else if pyStrip transcript = "" then (s, .err .emptyTranscript, 0)
  else
    match completion with
    | .error m => (s, .err (.completionFailed m), 1)
    | .ok raw =>
      match parseResponse raw with
      | .error .malformed => (s, .err .malformedResponse, 1)
      | .error .indexErr => (s, .err .fenceIndexError, 1)
      | .ok v =>
        ({ history := s.history ++ [{ time := now, result := v }], last_result := some v },
         .ok v, 1)

/-- The message st.error displays for each failure (src/app.py lines 646,
648, 673, 675; Python str of an IndexError from a bad list index is
"list index out of range"). -/
def errorMessage : SubmitError → String
  | .noApiKey => "Please enter your Anthropic API key in the sidebar."
  | .emptyTranscript => "Please paste a session transcript before generating."
  | .completionFailed m => "Error: " ++ m
  | .malformedResponse => "The AI returned an unexpected format. Please try again."
  | .fenceIndexError => "Error: list index out of range"

/-- Python history[-5:]: the last (at most) n entries. -/
def lastN (n : Nat) (l : List SessionEntry) : List SessionEntry := l.drop (l.length - n)

/-- The sidebar history list (src/app.py line 572): reversed(history[-5:]),
most-recent-first; reading returns the state unchanged. -/
def getHistory (s : AppState) : List SessionEntry × AppState :=
  ((lastN 5 s.history).reverse, s)

/-- The New Session button handler (src/app.py lines 559-562): clear the
current result, leave the history as it is. -/
def newSession (s : AppState) : AppState := { s with last_result := none }

/-- The New Session button is rendered exactly when a current result exists
(src/app.py line 559). -/
def newSessionAvailable (s : AppState) : Bool := s.last_result.isSome

-- ## Presenter (output rendering, src/app.py lines 679-770)

/-- The risk banner markup (lines 684-690) around the escaped quote slot. -/
def riskBannerHtml (quoted : String) : String :=
  "\n        <div class=\"risk-banner\">\n            <h3>⚠️ CLINICAL RISK DETECTED — Review Required</h3>\n            <p>The following content has been flagged. This requires immediate clinical review before proceeding.</p>\n            <div class=\"risk-quote\">\"" ++ quoted ++ "\"</div>\n        </div>\n        "

/-- The SOAP note card markup (lines 699-711) around its four slots. -/
def soapCardHtml (subj obj assess plan : String) : String :=
  "\n        <div class=\"output-card\">\n            <h3>📋 SOAP Note</h3>\n            <div class=\"soap-label\">S — Subjective</div>\n            <div class=\"soap-content\">" ++ subj ++ "</div>\n            <div class=\"soap-label\">O — Objective</div>\n            <div class=\"soap-content\">" ++ obj ++ "</div>\n            <div class=\"soap-label\">A — Assessment</div>\n            <div class=\"soap-content\">" ++ assess ++ "</div>\n            <div class=\"soap-label\">P — Plan</div>\n            <div class=\"soap-content\">" ++ plan ++ "</div>\n        </div>\n        "

/-- The GP letter card markup (lines 723-728) around its content slot. -/
def gpCardHtml (content : String) : String :=
  "\n        <div class=\"output-card\">\n            <h3>✉️ GP Letter</h3>\n            <div class=\"content\">" ++ content ++ "</div>\n        </div>\n        "

/-- The CBT formulation card markup (lines 736-746) around its three slots. -/
def formulationCardHtml (hot maint safety : String) : String :=
  "\n        <div class=\"output-card\">\n            <h3>🧠 CBT Formulation</h3>\n            <div class=\"soap-label\">Hot Thought</div>\n            <div class=\"soap-content\">" ++ hot ++ "</div>\n            <div class=\"soap-label\">Maintenance Cycle</div>\n            <div class=\"soap-content\">" ++ maint ++ "</div>\n            <div class=\"soap-label\">Safety Behaviours</div>\n            <div class=\"soap-content\">" ++ safety ++ "</div>\n        </div>\n        "

/-- The two-state risk badge (lines 756-760). -/
def badgeRiskHtml : String := "<div class=\"badge-risk\">⚠ Risk Detected</div>"

/-- The safe badge variant. -/
def badgeSafeHtml : String := "<div class=\"badge-safe\">✓ No Risk Identified</div>"

/-- The risk summary card markup (lines 762-768) around the badge and the
content slot. -/
def riskCardHtml (badge content : String) : String :=
  "\n        <div class=\"output-card\">\n            <h3>🛡 Risk Summary</h3>\n            " ++ badge ++ "\n            <div class=\"content\">" ++ content ++ "</div>\n        </div>\n        "

/-- The display artifacts produced by the rendering block, with each
interpolated safe(...) slot value recorded next to the markup built from it. -/
structure Rendered where
  banner : Option String
  bannerQuoteSlot : Option String
  soapSubjSlot : String
  soapObjSlot : String
  soapAssessSlot : String
  soapPlanSlot : String
  soapCard : String
  soapCopy : String
  gpSlot : String
  gpCard : String
  gpCopy : String
  hotSlot : String
  maintSlot : String
  safetySlot : String
  formulationCard : String
  formulationCopy : String
  riskBadge : String
  riskSummarySlot : String
  riskCard : String
  riskCopy : String

/-- The output-rendering block (src/app.py lines 679-770) applied to a
decoded object; none models the AttributeError raised when soap_note is
present with a non-dict value (None.get / str.get has no attribute get). -/
def renderObj (r : List (String × JValue)) : Option Rendered :=
  let bannerQuote : Option String :=
    if pyTruthy (jget r "risk_detected") then
      some (safe (some (pyGetD r "risk_content" (.jstr "Risk phrase not extracted"))))
    else none
  match pyGetD r "soap_note" (.jobj []) with
  | .jobj soap =>
    let subjSlot := safe (jget soap "subjective")
    let objSlot := safe (jget soap "objective")
    let assessSlot := safe (jget soap "assessment")
    let planSlot := safe (jget soap "plan")
    let gpVal := pyGetD r "gp_letter" (.jstr "")
    let hotSlot := safe (jget r "hot_thought")
    let maintSlot := safe (jget r "maintenance_cycle")
    let safetySlot := safe (jget r "safety_behaviours")
    let badge := if pyTruthy (jget r "risk_detected") then badgeRiskHtml else badgeSafeHtml
    let riskVal := pyGetD r "risk_summary" (.jstr "—")
    some
      { banner := bannerQuote.map riskBannerHtml
        bannerQuoteSlot := bannerQuote
        soapSubjSlot := subjSlot
        soapObjSlot := objSlot
        soapAssessSlot := assessSlot
        soapPlanSlot := planSlot
        soapCard := soapCardHtml subjSlot objSlot assessSlot planSlot
        soapCopy :=
          "S: " ++ pyStr (pyGetD soap "subjective" (.jstr "")) ++ "\n" ++
          "O: " ++ pyStr (pyGetD soap "objective" (.jstr "")) ++ "\n" ++
          "A: " ++ pyStr (pyGetD soap "assessment" (.jstr "")) ++ "\n" ++
          "P: " ++ pyStr (pyGetD soap "plan" (.jstr ""))
        gpSlot := safe (some gpVal)
        gpCard := gpCardHtml (safe (some gpVal))
        gpCopy := pyStr gpVal
        hotSlot := hotSlot
        maintSlot := maintSlot
        safetySlot := safetySlot
        formulationCard := formulationCardHtml hotSlot maintSlot safetySlot
        formulationCopy :=
          "Hot Thought: " ++ pyStr (pyGetD r "hot_thought" (.jstr "")) ++ "\n\n" ++
          "Maintenance Cycle: " ++ pyStr (pyGetD r "maintenance_cycle" (.jstr "")) ++ "\n\n" ++
          "Safety Behaviours: " ++ pyStr (pyGetD r "safety_behaviours" (.jstr ""))
        riskBadge := badge
        riskSummarySlot := safe (some riskVal)
        riskCard := riskCardHtml badge (safe (some riskVal))
        riskCopy := pyStr riskVal }
  | _ => none

/-- Rendering a decoded value: r.get requires a dict; any other current
result raises AttributeError (modelled as none). -/
def renderResult : JValue → Option Rendered
  | .jobj kvs => renderObj kvs
  | _ => none

/-- The rendering gate (line 679): the block runs only when last_result is
truthy (so an empty dict or empty list result is never rendered). -/
def renderApp (s : AppState) : Option Rendered :=
  if pyTruthy s.last_result then
    match s.last_result with
    | some v => renderResult v
    | none => none
  else none

/-- Projection helpers for stating concrete rendering facts. -/
def gpSlotOf (r : List (String × JValue)) : String :=
  ((renderObj r).map Rendered.gpSlot).getD ""

/-- The GP letter card of a rendered object, or empty when rendering fails. -/
def gpCardOf (r : List (String × JValue)) : String :=
  ((renderObj r).map Rendered.gpCard).getD ""

/-- The banner of a rendered object, flattened. -/
def bannerOf (r : List (String × JValue)) : Option String :=
  match renderObj r with
  | some out => out.banner
  | none => none

/-- The banner quote slot of a rendered object, flattened. -/
def bannerQuoteOf (r : List (String × JValue)) : Option String :=
  match renderObj r with
  | some out => out.bannerQuoteSlot
  | none => none

mutual

def sizeV : JValue → Nat
  | .null => 1
  | .jbool _ => 1
  | .jstr _ => 1
  | .jarr xs => sizeA xs + 1
  | .jobj kvs => sizeO kvs + 1

def sizeA : List JValue → Nat
  | [] => 0
  | x :: t => sizeV x + sizeA t + 1

def sizeO : List (String × JValue) → Nat
  | [] => 0
  | (_, v) :: t => sizeV v + sizeO t + 1

end

def scriptDemo : List (String × JValue) :=
  [("risk_detected", .jbool false), ("gp_letter", .jstr "<script>alert(1)</script>")]

def gpAbsentDemo : List (String × JValue) := [("risk_detected", .jbool false)]

def nullRiskDemo : List (String × JValue) :=
  [("risk_detected", .jbool true), ("risk_content", .null)]

def fallbackDemo : List (String × JValue) := [("risk_detected", .jbool true)]

def emptyRendered : Rendered :=
  { banner := none, bannerQuoteSlot := none, soapSubjSlot := "", soapObjSlot := "",
    soapAssessSlot := "", soapPlanSlot := "", soapCard := "", soapCopy := "", gpSlot := "",
    gpCard := "", gpCopy := "", hotSlot := "", maintSlot := "", safetySlot := "",
    formulationCard := "", formulationCopy := "", riskBadge := "", riskSummarySlot := "",
    riskCard := "", riskCopy := "" }

def nullFieldsDemo : List (String × JValue) :=
  [("risk_detected", .jbool false), ("hot_thought", .null), ("gp_letter", .null),
    ("soap_note", .jobj [("subjective", .null)])]

def nullFieldsOut : Rendered := (renderObj nullFieldsDemo).getD emptyRendered

def fallbackOut : Rendered := (renderObj fallbackDemo).getD emptyRendered

def demoState : AppState :=
  { history := [⟨"09:12", .jobj [("risk_detected", .jbool false)]⟩, ⟨"09:30", .null⟩],
    last_result := some .null }

def demoResult : JValue :=
  .jobj [("risk_detected", .jbool true),
    ("risk_content", .jstr "I do not want to be here anymore"),
    ("hot_thought", .jstr "I am a burden to everyone"),
    ("maintenance_cycle", .jstr "avoidance maintains low mood"),
    ("safety_behaviours", .jstr "None identified"),
    ("soap_note", .jobj [("subjective", .jstr "low mood, poor sleep"),
      ("objective", .jstr "flat affect"), ("assessment", .jstr "depressive episode"),
      ("plan", .jstr "behavioural activation")]),
    ("gp_letter", .jstr "Dear Dr Smith,\nthank you for this referral."),
    ("risk_summary", .jstr "risk language present; clinician review required")]


-- ## Supporting lemmas

theorem string_mk_data (s : String) : String.mk s.data = s := by cases s; rfl

theorem skipWs_cons {c : Char} (t : List Char) (h : jsonWs c = false) :
    skipWs (c :: t) = c :: t := by simp [skipWs, List.dropWhile_cons, h]

theorem hexVal_hexDigit (n : Nat) (h : n < 16) : hexVal (hexDigit n) = some n := by
  have hall : ∀ m, m < 16 → hexVal (hexDigit m) = some m := by decide
  exact hall n h

theorem parseStrBody_ser : ∀ (s rest : List Char),
    parseStrBody (serStr s ++ '"' :: rest) = some (s, rest)
  | [], rest => by
    rw [serStr, List.nil_append, parseStrBody.eq_def]
    simp
  | c :: t, rest => by
    have ih := parseStrBody_ser t rest
    by_cases h1 : c = '"'
    · subst h1
      rw [serStr, escJsonChar]
      simp only [reduceIte, List.cons_append, List.append_assoc]
      rw [parseStrBody.eq_def]
      simp only [reduceIte]
      simp [ih]
    · by_cases h2 : c = '\\'
      · subst h2
        rw [serStr, escJsonChar]
        simp only [reduceIte, List.cons_append, List.append_assoc]
        rw [parseStrBody.eq_def]
        simp only [reduceIte]
        simp [ih]
      · by_cases h3 : c.toNat < 32
        · have hdiv : c.toNat / 16 < 16 := by omega
          have hmod : c.toNat % 16 < 16 := Nat.mod_lt _ (by norm_num)
          rw [serStr, escJsonChar]
          rw [if_neg h1, if_neg h2, if_pos h3]
          simp only [List.cons_append, List.append_assoc]
          rw [parseStrBody.eq_def]
          simp only [reduceIte]
          rw [hexVal_hexDigit _ hdiv, hexVal_hexDigit _ hmod]
          have hn : ((0 * 16 + 0) * 16 + c.toNat / 16) * 16 + c.toNat % 16 = c.toNat := by
            omega
          have h55 : c.toNat < 55296 := by omega
          simp [show hexVal '0' = some 0 from rfl, hn, h55, ih, Char.ofNat_toNat]
          have hx : c.toNat / 16 * 16 + c.toNat % 16 = c.toNat := by omega
          exact ⟨Or.inl (by omega), by rw [hx, Char.ofNat_toNat]⟩
        · rw [serStr, escJsonChar]
          rw [if_neg h1, if_neg h2, if_neg h3]
          simp only [List.cons_append, List.append_assoc, List.nil_append]
          rw [parseStrBody.eq_def]
          simp only []
          rw [if_neg h1, if_neg h2, if_neg h3]
          simp [ih]

mutual

theorem sizeV_lt : ∀ v : JValue, sizeV v < (ser v).length
  | .null => by simp [sizeV, ser]
  | .jbool b => by cases b <;> simp [sizeV, ser]
  | .jstr s => by simp [sizeV, ser]
  | .jarr xs => by have h := sizeA_le xs; simp [sizeV, ser]; omega
  | .jobj kvs => by have h := sizeO_le kvs; simp [sizeV, ser]; omega

theorem sizeA_le : ∀ xs : List JValue, sizeA xs ≤ (serArr xs).length
  | [] => by simp [sizeA, serArr]
  | [x] => by have h := sizeV_lt x; simp [sizeA, sizeV, serArr]; omega
  | x :: y :: t => by
    have h1 := sizeV_lt x
    have h2 := sizeA_le (y :: t)
    show sizeV x + sizeA (y :: t) + 1 ≤ (ser x ++ ',' :: serArr (y :: t)).length
    simp only [List.length_append, List.length_cons]
    omega

theorem sizeO_le : ∀ kvs : List (String × JValue), sizeO kvs ≤ (serObj kvs).length
  | [] => by simp [sizeO, serObj]
  | [(k, v)] => by have h := sizeV_lt v; simp [sizeO, serObj]; omega
  | (k, v) :: m :: t => by
    have h1 := sizeV_lt v
    have h2 := sizeO_le (m :: t)
    show sizeV v + sizeO (m :: t) + 1 ≤
      (('"' :: serStr k.data ++ '"' :: ':' :: ser v) ++ ',' :: serObj (m :: t)).length
    simp only [List.length_append, List.length_cons]
    omega

end

theorem keyMem_append (k : String) (a b : List (String × JValue)) :
    keyMem k (a ++ b) = (keyMem k a || keyMem k b) := by
  induction a with
  | nil => simp [keyMem]
  | cons p t ihp => cases p with
    | mk k0 v0 => simp [keyMem, ihp, Bool.or_assoc]

theorem keyMem_of_mem (p : String × JValue) (l : List (String × JValue)) (h : p ∈ l) :
    keyMem p.1 l = true := by
  induction l with
  | nil => simp at h
  | cons q t ihq =>
    rcases List.mem_cons.mp h with rfl | hm
    · cases p with
      | mk k v => simp [keyMem]
    · cases q with
      | mk k0 v0 => simp [keyMem, ihq hm]

theorem dinsert_append (k : String) (v : JValue) (acc : List (String × JValue))
    (h : keyMem k acc = false) : dinsert acc k v = acc ++ [(k, v)] := by
  induction acc with
  | nil => simp [dinsert]
  | cons q t ihq =>
    cases q with
    | mk k0 v0 =>
      simp [keyMem, Bool.or_eq_false_iff] at h
      simp [dinsert, ihq h.2, show ¬ k0 = k from fun he => by simp [he] at h]

theorem foldl_dinsert (kvs : List (String × JValue)) (acc : List (String × JValue))
    (hk : ∀ p ∈ kvs, keyMem p.1 acc = false) (hnd : nodupKeysO kvs = true) :
    kvs.foldl (fun a p => dinsert a p.1 p.2) acc = acc ++ kvs := by
  induction kvs generalizing acc with
  | nil => simp
  | cons q t ihq =>
    cases q with
    | mk k v =>
      simp only [nodupKeysO, Bool.and_eq_true] at hnd
      have hfresh : keyMem k t = false := by
        have := hnd.1.1
        simpa using this
      simp only [List.foldl_cons]
      rw [dinsert_append k v acc (hk (k, v) (List.mem_cons_self _ _))]
      rw [ihq (acc ++ [(k, v)]) ?hk2 hnd.2]
      · simp
      case hk2 =>
        intro p hp
        rw [keyMem_append]
        have h1 : keyMem p.1 acc = false := hk p (List.mem_cons_of_mem _ hp)
        have h2 : keyMem p.1 [(k, v)] = false := by
          simp [keyMem]
          intro he
          have : keyMem p.1 t = true := keyMem_of_mem p t hp
          rw [← he] at this
          rw [this] at hfresh
          exact absurd hfresh (by simp)
        simp [h1, h2]

theorem mkDict_self (kvs : List (String × JValue)) (hnd : nodupKeysO kvs = true) :
    mkDict kvs = kvs := by
  simpa [mkDict] using foldl_dinsert kvs [] (by intro p _; simp [keyMem]) hnd

theorem ser_head : ∀ v : JValue, ∃ c t, ser v = c :: t ∧ jsonWs c = false ∧ c ≠ ']' ∧
    c ≠ rbrace ∧ pyWs c = false ∧ c ≠ btick
  | .null => ⟨'n', ['u', 'l', 'l'], rfl, by decide, by decide, by decide, by decide, by decide⟩
  | .jbool true => ⟨'t', ['r', 'u', 'e'], rfl, by decide, by decide, by decide, by decide,
      by decide⟩
  | .jbool false => ⟨'f', ['a', 'l', 's', 'e'], rfl, by decide, by decide, by decide, by decide,
      by decide⟩
  | .jstr s => ⟨'"', serStr s.data ++ ['"'], rfl, by decide, by decide, by decide, by decide,
      by decide⟩
  | .jarr xs => ⟨'[', serArr xs ++ [']'], rfl, by decide, by decide, by decide, by decide,
      by decide⟩
  | .jobj kvs => ⟨lbrace, serObj kvs ++ [rbrace], rfl, by decide, by decide, by decide,
      by decide, by decide⟩

theorem serObj_cons (k : String) (v : JValue) (t : List (String × JValue)) :
    ∃ u, serObj ((k, v) :: t) = '"' :: u := by
  cases t with
  | nil => exact ⟨serStr k.data ++ '"' :: ':' :: ser v, rfl⟩
  | cons m tt => exact ⟨(serStr k.data ++ '"' :: ':' :: ser v) ++ ',' :: serObj (m :: tt), by
      simp [serObj, List.cons_append]⟩

theorem serArr_cons (x : JValue) (xs : List JValue) :
    ∃ u, serArr (x :: xs) = ser x ++ u := by
  cases xs with
  | nil => exact ⟨[], by simp [serArr]⟩
  | cons y t => exact ⟨',' :: serArr (y :: t), rfl⟩

theorem round_all : ∀ fuel : Nat,
    (∀ v rest, nodupKeysV v = true → sizeV v < fuel →
      parseVal fuel (ser v ++ rest) = some (v, rest))
    ∧ (∀ xs rest, nodupKeysA xs = true → xs ≠ [] → sizeA xs < fuel →
      parseItems fuel (serArr xs ++ ']' :: rest) = some (xs, rest))
    ∧ (∀ kvs rest, nodupKeysO kvs = true → kvs ≠ [] → sizeO kvs < fuel →
      parseMembers fuel (serObj kvs ++ rbrace :: rest) = some (kvs, rest)) := by
  intro fuel
  induction fuel with
  | zero =>
    exact ⟨fun v rest _ h => absurd h (Nat.not_lt_zero _),
      fun xs rest _ _ h => absurd h (Nat.not_lt_zero _),
      fun kvs rest _ _ h => absurd h (Nat.not_lt_zero _)⟩
  | succ fuel ih =>
    obtain ⟨ihV, ihA, ihO⟩ := ih
    refine ⟨?_, ?_, ?_⟩
    · -- parseVal
      intro v rest hnd hsz
      cases v with
      | null => rfl
      | jbool b => cases b <;> rfl
      | jstr s =>
        have h0 : ser (.jstr s) ++ rest = '"' :: (serStr s.data ++ '"' :: rest) := by
          show ('"' :: serStr s.data ++ ['"']) ++ rest = _
          simp [List.cons_append, List.append_assoc]
        rw [h0, parseVal.eq_def]
        simp only []
        rw [skipWs_cons _ (by decide)]
        simp only [reduceIte]
        rw [parseStrBody_ser]
        simp [string_mk_data]
      | jarr xs =>
        cases xs with
        | nil => rfl
        | cons x xs' =>
          have hnd' : nodupKeysA (x :: xs') = true := hnd
          have hsz' : sizeA (x :: xs') + 1 < fuel + 1 := hsz
          obtain ⟨c, tl, hserx, hws, hne1, hne2, hpws, hnb⟩ := ser_head x
          obtain ⟨u, hu⟩ := serArr_cons x xs'
          have h0 : ser (.jarr (x :: xs')) ++ rest = '[' :: (serArr (x :: xs') ++ ']' :: rest) := by
            show ('[' :: serArr (x :: xs') ++ [']']) ++ rest = _
            simp [List.cons_append, List.append_assoc]
          rw [h0, parseVal.eq_def]
          simp only []
          rw [skipWs_cons _ (by decide)]
          simp only [reduceIte]
          have h1 : serArr (x :: xs') ++ ']' :: rest = c :: ((tl ++ u) ++ ']' :: rest) := by
            rw [hu, hserx]
            simp [List.cons_append, List.append_assoc]
          rw [h1, skipWs_cons _ hws]
          simp only []
          rw [if_neg hne1, ← h1]
          rw [ihA (x :: xs') rest hnd' (by simp) (by omega)]
          rfl
      | jobj kvs =>
        cases kvs with
        | nil => rfl
        | cons p kvs' =>
          obtain ⟨k, v⟩ := p
          have hnd' : nodupKeysO ((k, v) :: kvs') = true := hnd
          have hsz' : sizeO ((k, v) :: kvs') + 1 < fuel + 1 := hsz
          obtain ⟨u, hu⟩ := serObj_cons k v kvs'
          have h0 : ser (.jobj ((k, v) :: kvs')) ++ rest =
              lbrace :: (serObj ((k, v) :: kvs') ++ rbrace :: rest) := by
            show (lbrace :: serObj ((k, v) :: kvs') ++ [rbrace]) ++ rest = _
            simp [List.cons_append, List.append_assoc]
          rw [h0, parseVal.eq_def]
          simp only []
          rw [skipWs_cons _ (by decide)]
          simp only []
          rw [if_neg (by decide : ¬ lbrace = 'n'), if_neg (by decide : ¬ lbrace = 't'),
            if_neg (by decide : ¬ lbrace = 'f'), if_neg (by decide : ¬ lbrace = '"'),
            if_neg (by decide : ¬ lbrace = '[')]
          simp only [if_true, reduceIte]
          have h1 : serObj ((k, v) :: kvs') ++ rbrace :: rest = '"' :: (u ++ rbrace :: rest) := by
            rw [hu]
            simp [List.cons_append]
          rw [h1, skipWs_cons _ (by decide)]
          simp only []
          rw [if_neg (by decide : ¬ '"' = rbrace), ← h1]
          rw [ihO ((k, v) :: kvs') rest hnd' (by simp) (by omega)]
          simp only [Option.map_some']
          rw [mkDict_self _ hnd']
    · -- parseItems
      intro xs rest hnd hne hsz
      cases xs with
      | nil => exact absurd rfl hne
      | cons x xs' =>
        obtain ⟨hx, ht⟩ : nodupKeysV x = true ∧ nodupKeysA xs' = true := by
          have h := (show (nodupKeysV x && nodupKeysA xs') = true from hnd)
          simpa [Bool.and_eq_true] using h
        have hsz' : sizeV x + sizeA xs' + 1 < fuel + 1 := hsz
        rw [parseItems.eq_def]
        simp only []
        cases xs' with
        | nil =>
          have h1 : serArr [x] ++ ']' :: rest = ser x ++ ']' :: rest := by
            simp [serArr]
          rw [h1, ihV x (']' :: rest) hx (by omega)]
          simp only []
          rw [skipWs_cons _ (by decide)]
          simp only [reduceIte]
          rw [if_neg (by decide : ¬ ']' = ',')]
        | cons y t =>
          have h1 : serArr (x :: y :: t) ++ ']' :: rest =
              ser x ++ (',' :: (serArr (y :: t) ++ ']' :: rest)) := by
            show (ser x ++ ',' :: serArr (y :: t)) ++ ']' :: rest = _
            simp [List.cons_append, List.append_assoc]
          rw [h1, ihV x _ hx (by omega)]
          simp only []
          rw [skipWs_cons _ (by decide)]
          simp only [reduceIte]
          rw [ihA (y :: t) rest ht (by simp) (by omega)]
          rfl
    · -- parseMembers
      intro kvs rest hnd hne hsz
      cases kvs with
      | nil => exact absurd rfl hne
      | cons p kvs' =>
        obtain ⟨k, v⟩ := p
        obtain ⟨hfresh, hv, ht⟩ :
            (!keyMem k kvs') = true ∧ nodupKeysV v = true ∧ nodupKeysO kvs' = true := by
          have h := (show ((!keyMem k kvs') && nodupKeysV v && nodupKeysO kvs') = true from hnd)
          simp only [Bool.and_eq_true] at h
          exact ⟨h.1.1, h.1.2, h.2⟩
        have hsz' : sizeV v + sizeO kvs' + 1 < fuel + 1 := hsz
        rw [parseMembers.eq_def]
        simp only []
        cases kvs' with
        | nil =>
          have h1 : serObj [(k, v)] ++ rbrace :: rest =
              '"' :: (serStr k.data ++ '"' :: ':' :: (ser v ++ rbrace :: rest)) := by
            show ('"' :: serStr k.data ++ '"' :: ':' :: ser v) ++ rbrace :: rest = _
            simp [List.cons_append, List.append_assoc]
          rw [h1, skipWs_cons _ (by decide)]
          simp only [reduceIte]
          rw [parseStrBody_ser]
          simp only []
          rw [skipWs_cons _ (by decide)]
          simp only [reduceIte]
          rw [ihV v (rbrace :: rest) hv (by omega)]
          simp only []
          rw [skipWs_cons _ (by decide)]
          simp only []
          rw [if_neg (by decide : ¬ rbrace = ',')]
          simp only [if_true, reduceIte]
        | cons m tt =>
          have h1 : serObj ((k, v) :: m :: tt) ++ rbrace :: rest =
              '"' :: (serStr k.data ++ '"' :: ':' ::
                (ser v ++ ',' :: (serObj (m :: tt) ++ rbrace :: rest))) := by
            show (('"' :: serStr k.data ++ '"' :: ':' :: ser v) ++ ',' :: serObj (m :: tt)) ++
              rbrace :: rest = _
            simp [List.cons_append, List.append_assoc]
          rw [h1, skipWs_cons _ (by decide)]
          simp only [reduceIte]
          rw [parseStrBody_ser]
          simp only []
          rw [skipWs_cons _ (by decide)]
          simp only [reduceIte]
          rw [ihV v _ hv (by omega)]
          simp only []
          rw [skipWs_cons _ (by decide)]
          simp only [reduceIte]
          rw [ihO (m :: tt) rest ht (by simp) (by omega)]
          rw [string_mk_data]
          rfl

theorem json_loads_ser (v : JValue) (hnd : nodupKeysV v = true) :
    json_loads (ser v) = some v := by
  have h := (round_all ((ser v).length + 1)).1 v [] hnd (by have := sizeV_lt v; omega)
  rw [List.append_nil] at h
  simp only [json_loads]
  rw [h]
  simp [skipWs]

theorem json_loads_ser_nl (v : JValue) (hnd : nodupKeysV v = true) :
    json_loads (ser v ++ ['\n']) = some v := by
  have h := (round_all ((ser v ++ ['\n']).length + 1)).1 v ['\n'] hnd
    (by have := sizeV_lt v; simp [List.length_append]; omega)
  simp only [json_loads]
  rw [h]
  simp [skipWs, List.dropWhile, jsonWs]

theorem dropWhile_head_keep {p : Char → Bool} :
    ∀ l : List Char, (∀ c, l.head? = some c → p c = false) → l.dropWhile p = l
  | [], _ => rfl
  | c :: t, h => by simp [List.dropWhile_cons, h c rfl]

theorem pyStripL_id (l : List Char) (h1 : ∀ c, l.head? = some c → pyWs c = false)
    (h2 : ∀ c, l.getLast? = some c → pyWs c = false) : pyStripL l = l := by
  rw [pyStripL, dropWhile_head_keep l h1, dropWhile_head_keep l.reverse
    (fun c hc => h2 c (by rwa [List.head?_reverse] at hc)), List.reverse_reverse]

theorem ser_last : ∀ v : JValue, ∃ c, (ser v).getLast? = some c ∧ pyWs c = false
  | .null => ⟨'l', rfl, by decide⟩
  | .jbool true => ⟨'e', rfl, by decide⟩
  | .jbool false => ⟨'e', rfl, by decide⟩
  | .jstr s => ⟨'"', by
      rw [show ser (.jstr s) = ('"' :: serStr s.data) ++ ['"'] from by
        simp [ser, List.cons_append]]
      exact List.getLast?_concat _, by decide⟩
  | .jarr xs => ⟨']', by
      rw [show ser (.jarr xs) = ('[' :: serArr xs) ++ [']'] from by
        simp [ser, List.cons_append]]
      exact List.getLast?_concat _, by decide⟩
  | .jobj kvs => ⟨rbrace, by
      rw [show ser (.jobj kvs) = (lbrace :: serObj kvs) ++ [rbrace] from by
        simp [ser, List.cons_append]]
      exact List.getLast?_concat _, by decide⟩

theorem pyStripL_ser (v : JValue) : pyStripL (ser v) = ser v := by
  obtain ⟨c, tl, hser, _, _, _, hpws, _⟩ := ser_head v
  obtain ⟨e, hlast, hepws⟩ := ser_last v
  refine pyStripL_id _ ?_ ?_
  · intro d hd
    rw [hser] at hd
    simp at hd
    rwa [← hd]
  · intro d hd
    rw [hlast] at hd
    simp at hd
    rwa [← hd]

theorem fenceMarkerNotAtHead {c : Char} (t : List Char) (h : c ≠ btick) :
    "```".data.isPrefixOf (c :: t) = false := by
  have hb : (btick == c) = false := by
    cases hbc : btick == c
    · rfl
    · exact absurd (beq_iff_eq.mp hbc).symm h
  show (btick :: btick :: btick :: []).isPrefixOf (c :: t) = false
  simp [List.isPrefixOf, hb]

theorem ser_not_fenced (v : JValue) : "```".data.isPrefixOf (ser v) = false := by
  obtain ⟨c, tl, hser, _, _, _, _, hnb⟩ := ser_head v
  rw [hser]
  exact fenceMarkerNotAtHead tl hnb

theorem rsplit_fence (s : List Char) :
    rsplitBefore (s ++ '\n' :: "```".data) "```".data = s ++ ['\n'] := by
  have hrev : (s ++ '\n' :: "```".data).reverse = btick :: btick :: btick :: '\n' :: s.reverse := by
    simp [List.reverse_append]
    decide
  have h0 : firstOcc ("```".data.reverse) (btick :: btick :: btick :: '\n' :: s.reverse) =
      some 0 := rfl
  simp only [rsplitBefore, hrev, h0]
  have hlen : (s ++ '\n' :: "```".data).length - ("```".data).length - 0 = s.length + 1 := by
    simp [List.length_append]
  rw [hlen]
  rw [show s ++ '\n' :: "```".data = (s ++ ['\n']) ++ "```".data from by simp]
  rw [List.take_left' (by simp)]

theorem data_string_mk (l : List Char) : (String.mk l).data = l := rfl

theorem pyStripL_fenced (v : JValue) :
    pyStripL ("```json\n".data ++ ser v ++ '\n' :: "```".data) =
      "```json\n".data ++ ser v ++ '\n' :: "```".data := by
  refine pyStripL_id _ ?_ ?_
  · intro c hc
    rw [show (("```json\n".data ++ ser v ++ '\n' :: "```".data)).head? = some btick from by
      rw [show "```json\n".data ++ ser v ++ '\n' :: "```".data =
        btick :: ("``json\n".data ++ ser v ++ '\n' :: "```".data) from rfl]
      rfl] at hc
    cases hc
    decide
  · intro c hc
    rw [show "```json\n".data ++ ser v ++ '\n' :: "```".data =
      ("```json\n".data ++ ser v ++ ['\n', btick, btick]) ++ [btick] from by
        simp
        decide] at hc
    rw [List.getLast?_concat] at hc
    cases hc
    decide

/-- C4: for every Clinical Result (decoded object, duplicate-free keys as any
Python dict has), parsing its plain JSON serialization and parsing the same
text wrapped in a triple-backtick fence (language tag on the opening line)
both succeed and return the result unchanged: fence-stripping is a no-op on
semantics. -/
theorem claim_C4 (v : JValue) (hnd : nodupKeysV v = true) :
    parseResponse (format_as_plain_json v) = .ok v
    ∧ parseResponse (format_as_fenced_json v) = .ok v := by
  constructor
  · simp only [parseResponse, format_as_plain_json, data_string_mk, pyStripL_ser v,
      ser_not_fenced v, Bool.false_eq_true, if_false]
    rw [json_loads_ser v hnd]
  · simp only [parseResponse, format_as_fenced_json, data_string_mk, pyStripL_fenced v]
    rw [show ("```".data.isPrefixOf ("```json\n".data ++ ser v ++ '\n' :: "```".data)) =
      true from rfl]
    simp only [if_true]
    rw [show splitAfterNl ("```json\n".data ++ ser v ++ '\n' :: "```".data) =
      some (ser v ++ '\n' :: "```".data) from rfl]
    simp only []
    rw [rsplit_fence (ser v), json_loads_ser_nl v hnd]

/-- C1 counterexample: a JSON array instead of an object does not make parse
fail — json.loads decodes it successfully and parse returns the list. -/
theorem claim_C1_counterexample : parseResponse "[]" = .ok (.jarr []) := rfl

/-- C1 (amended): parse fails with MalformedResponseError exactly when JSON
decoding of the fence-stripped text fails — in particular on the empty string,
non-JSON text and truncated JSON, with no partial recovery — but a JSON array
instead of an object decodes successfully and is accepted: the code performs
no top-level-object check. -/
theorem claim_C1 :
    (∀ s : String, parseResponse s = .error .malformed ↔
      ∃ t, decodedText s = some t ∧ json_loads t = none)
    ∧ parseResponse "" = .error .malformed
    ∧ parseResponse "The transcript shows low mood." = .error .malformed
    ∧ parseResponse "\x7b\"risk_detected\": tr" = .error .malformed := by
  refine ⟨?_, rfl, rfl, rfl⟩
  intro s
  simp only [parseResponse, decodedText]
  by_cases hp : "```".data.isPrefixOf (pyStripL s.data) = true
  · simp only [hp, if_true]
    cases hnl : splitAfterNl (pyStripL s.data) with
    | none => simp [hnl]
    | some t =>
      cases hjl : json_loads (rsplitBefore t "```".data) with
      | none => simp [hnl, hjl]
      | some v => simp [hnl, hjl]
  · rw [Bool.not_eq_true] at hp
    simp only [hp, Bool.false_eq_true, if_false]
    cases hjl : json_loads (pyStripL s.data) with
    | none => simp [hjl]
    | some v => simp [hjl]

/-- C1 witness: the characterisation applied at a concrete non-JSON input. -/
theorem claim_C1_witness :
    parseResponse "oops" = .error .malformed ↔
      ∃ t, decodedText "oops" = some t ∧ json_loads t = none :=
  claim_C1.1 "oops"

/-- C2: every error outcome (validation, completion-client exception,
malformed response, fence IndexError) aborts submit with the Session Store
history and the current-result pointer exactly as they were before the call:
no partial or corrupt entry is ever stored. -/
theorem claim_C2 (s : AppState) (k t : String) (comp : Except String String)
    (now : String) (e : SubmitError)
    (h : (submit s k t comp now).2.1 = .err e) :
    (submit s k t comp now).1 = s := by
  by_cases hk : k = ""
  · simp [submit, hk]
  · by_cases ht : pyStrip t = ""
    · simp [submit, hk, ht]
    · cases comp with
      | error m => simp [submit, hk, ht]
      | ok raw =>
        cases hp : parseResponse raw with
        | error pe => cases pe <;> simp [submit, hk, ht, hp]
        | ok v => simp [submit, hk, ht, hp] at h
  
/-- C2 witness: a concrete failing call leaves the initial state unchanged. -/
theorem claim_C2_witness :
    (submit initialState "" "transcript" (.ok "x") "10:00").2.1 = .err .noApiKey
    ∧ (submit initialState "" "transcript" (.ok "x") "10:00").1 = initialState :=
  ⟨rfl, claim_C2 initialState "" "transcript" (.ok "x") "10:00" .noApiKey rfl⟩

/-- C5: an empty credential or an empty/whitespace-only transcript makes
submit fail with the corresponding ValidationError, with zero completion
calls, an unchanged state, and a result independent of the completion
provider — the Completion Client is never invoked. -/
theorem claim_C5 (s : AppState) (k t : String) (comp : Except String String) (now : String)
    (h : k = "" ∨ pyStrip t = "") :
    (submit s k t comp now).2.2 = 0
    ∧ ((submit s k t comp now).2.1 = .err .noApiKey
        ∨ (submit s k t comp now).2.1 = .err .emptyTranscript)
    ∧ (submit s k t comp now).1 = s
    ∧ ∀ comp2, submit s k t comp now = submit s k t comp2 now := by
  by_cases hk : k = ""
  · simp [submit, hk]
  · rcases h with h | h
    · exact absurd h hk
    · simp [submit, hk, h]

/-- C5 witness: a whitespace-only transcript at a concrete call. -/
theorem claim_C5_witness :
    (submit initialState "sk-ant-key" "   " (.ok "\x7b\x7d") "10:00").2.2 = 0
    ∧ ((submit initialState "sk-ant-key" "   " (.ok "\x7b\x7d") "10:00").2.1 = .err .noApiKey
        ∨ (submit initialState "sk-ant-key" "   " (.ok "\x7b\x7d") "10:00").2.1 =
          .err .emptyTranscript)
    ∧ (submit initialState "sk-ant-key" "   " (.ok "\x7b\x7d") "10:00").1 = initialState
    ∧ ∀ comp2, submit initialState "sk-ant-key" "   " (.ok "\x7b\x7d") "10:00" =
        submit initialState "sk-ant-key" "   " comp2 "10:00" :=
  claim_C5 initialState "sk-ant-key" "   " (.ok "\x7b\x7d") "10:00" (Or.inr rfl)

/-- C9: a provider reply whose stripped text starts with a fence marker but
contains no newline makes fence-stripping raise IndexError rather than a
JSONDecodeError, so submit surfaces the generic error message instead of the
unexpected-format message, and the Session Store remains unchanged. -/
theorem claim_C9 (s : AppState) (k t now raw : String)
    (hk : ¬ k = "") (ht : ¬ pyStrip t = "")
    (hfence : "```".data.isPrefixOf (pyStripL raw.data) = true)
    (hnl : splitAfterNl (pyStripL raw.data) = none) :
    (submit s k t (.ok raw) now).2.1 = .err .fenceIndexError
    ∧ (submit s k t (.ok raw) now).1 = s
    ∧ errorMessage .fenceIndexError = "Error: list index out of range"
    ∧ errorMessage .fenceIndexError ≠ errorMessage .malformedResponse := by
  have hp : parseResponse raw = .error .indexErr := by
    simp only [parseResponse, hfence, if_true, hnl]
  refine ⟨?_, ?_, rfl, by decide⟩ <;> simp [submit, hk, ht, hp]

/-- C9 witness: the bare-fence reply at a concrete call. -/
theorem claim_C9_witness :
    (submit initialState "sk-ant-key" "transcript" (.ok "```") "10:00").2.1 =
      .err .fenceIndexError
    ∧ (submit initialState "sk-ant-key" "transcript" (.ok "```") "10:00").1 = initialState
    ∧ errorMessage .fenceIndexError = "Error: list index out of range"
    ∧ errorMessage .fenceIndexError ≠ errorMessage .malformedResponse :=
  claim_C9 initialState "sk-ant-key" "transcript" "10:00" "```" (by decide) (by decide) rfl rfl

/-- C10: the New Session operation, available exactly when a current result
exists, clears the current-result pointer and leaves the history untouched. -/
theorem claim_C10 (s : AppState) :
    (newSession s).last_result = none
    ∧ (newSession s).history = s.history
    ∧ newSessionAvailable s = s.last_result.isSome :=
  ⟨rfl, rfl, rfl⟩

/-- C4 witness: the roundtrip at a concrete full Clinical Result. -/
theorem claim_C4_witness :
    parseResponse (format_as_plain_json demoResult) = .ok demoResult
    ∧ parseResponse (format_as_fenced_json demoResult) = .ok demoResult :=
  claim_C4 demoResult rfl

/-- C6: getHistory returns exactly min(N,5) entries in most-recent-first
order and returns the state unchanged (the store size never changes); each
successful submit appends exactly one entry, so N successful submissions
from an empty store give history length N. -/
theorem claim_C6 (s : AppState) :
    (getHistory s).2 = s
    ∧ (getHistory s).1.length = min s.history.length 5
    ∧ (∀ i : Nat, i < min s.history.length 5 →
        (getHistory s).1[i]? = s.history[s.history.length - 1 - i]?)
    ∧ (∀ (k t now : String) (comp : Except String String) (v : JValue),
        (submit s k t comp now).2.1 = .ok v →
        (submit s k t comp now).1.history = s.history ++ [{ time := now, result := v }]) := by
  refine ⟨rfl, ?_, ?_, ?_⟩
  · simp [getHistory, lastN]
    omega
  · intro i hi
    have hlen : (lastN 5 s.history).length = min s.history.length 5 := by
      simp [lastN]
      omega
    have h1 : i < (lastN 5 s.history).length := by rw [hlen]; exact hi
    show (lastN 5 s.history).reverse[i]? = _
    rw [List.getElem?_reverse h1]
    simp only [lastN, List.getElem?_drop]
    congr 1
    simp only [lastN, List.length_drop] at h1 ⊢
    omega
  · intro k t now comp v h
    by_cases hk : k = ""
    · simp [submit, hk] at h
    · by_cases ht : pyStrip t = ""
      · simp [submit, hk, ht] at h
      · cases comp with
        | error m => simp [submit, hk, ht] at h
        | ok raw =>
          cases hp : parseResponse raw with
          | error pe => cases pe <;> simp [submit, hk, ht, hp] at h
          | ok v0 =>
            simp only [submit, hk, ht, hp, if_neg, if_false] at h ⊢
            simp at h
            subst h
            simp

/-- C6 witness: the ordering fact applied at a concrete two-entry store. -/
theorem claim_C6_witness :
    0 < min demoState.history.length 5
    ∧ (getHistory demoState).1[0]? =
        demoState.history[demoState.history.length - 1 - 0]? :=
  ⟨by decide, (claim_C6 demoState).2.2.1 0 (by decide)⟩

theorem htmlEscapeL_no_angle : ∀ l : List Char,
    (htmlEscapeL l).all (fun c => !(c == '<') && !(c == '>')) = true
  | [] => rfl
  | c :: t => by
    have ih := htmlEscapeL_no_angle t
    show ((escHtmlChar c ++ htmlEscapeL t).all _) = true
    rw [List.all_append]
    simp only [ih, Bool.and_true]
    by_cases h1 : c = '&'
    · subst h1; decide
    · by_cases h2 : c = '<'
      · subst h2; decide
      · by_cases h3 : c = '>'
        · subst h3; decide
        · by_cases h4 : c = '"'
          · subst h4; decide
          · by_cases h5 : c = apos
            · subst h5; decide
            · rw [show escHtmlChar c = [c] from by
                simp [escHtmlChar, h1, h2, h3, h4, h5]]
              have hb2 : (c == '<') = false := by
                cases hx : c == '<'
                · rfl
                · exact absurd (beq_iff_eq.mp hx) h2
              have hb3 : (c == '>') = false := by
                cases hx : c == '>'
                · rfl
                · exact absurd (beq_iff_eq.mp hx) h3
              simp [List.all_cons, hb2, hb3]

theorem safe_no_angle (x : Option JValue) :
    (safe x).data.all (fun c => !(c == '<') && !(c == '>')) = true := by
  match x with
  | none => decide
  | some .null => decide
  | some (.jbool b) =>
    show (htmlEscape (pyStr (.jbool b))).data.all _ = true
    rw [htmlEscape, data_string_mk]
    exact htmlEscapeL_no_angle _
  | some (.jstr s0) =>
    show (htmlEscape (pyStr (.jstr s0))).data.all _ = true
    rw [htmlEscape, data_string_mk]
    exact htmlEscapeL_no_angle _
  | some (.jarr xs) =>
    show (htmlEscape (pyStr (.jarr xs))).data.all _ = true
    rw [htmlEscape, data_string_mk]
    exact htmlEscapeL_no_angle _
  | some (.jobj kvs) =>
    show (htmlEscape (pyStr (.jobj kvs))).data.all _ = true
    rw [htmlEscape, data_string_mk]
    exact htmlEscapeL_no_angle _

/-- C3: every model-supplied string is embedded through safe, whose output
contains no raw angle bracket; the GP letter card embeds exactly the escaped
gp_letter; and a gp_letter carrying a script tag renders with escaped angle
brackets, never as executable markup. -/
theorem claim_C3 :
    (∀ x : Option JValue, (safe x).data.all (fun c => !(c == '<') && !(c == '>')) = true)
    ∧ (∀ (r : List (String × JValue)) (sl : String),
        pyGetD r "gp_letter" (.jstr "") = .jstr sl → (renderObj r).isSome = true →
        gpSlotOf r = htmlEscape sl ∧ gpCardOf r = gpCardHtml (htmlEscape sl))
    ∧ (renderObj scriptDemo).isSome = true
    ∧ strContains (gpCardOf scriptDemo) "&lt;script&gt;alert(1)&lt;/script&gt;" = true
    ∧ strContains (gpCardOf scriptDemo) "<script>" = false := by
  refine ⟨safe_no_angle, ?_, rfl, rfl, rfl⟩
  intro r sl hgp hrend
  cases hsoap : pyGetD r "soap_note" (.jobj []) with
  | jobj soap =>
    constructor
    · simp [gpSlotOf, renderObj, hsoap, hgp, safe, pyStr]
    · simp [gpCardOf, renderObj, hsoap, hgp, safe, pyStr]
  | null => simp [renderObj, hsoap] at hrend
  | jbool b => simp [renderObj, hsoap] at hrend
  | jstr s0 => simp [renderObj, hsoap] at hrend
  | jarr xs => simp [renderObj, hsoap] at hrend

/-- C3 witness: the general GP-letter fact applied at the script demo. -/
theorem claim_C3_witness :
    gpSlotOf scriptDemo = htmlEscape "<script>alert(1)</script>"
    ∧ gpCardOf scriptDemo = gpCardHtml (htmlEscape "<script>alert(1)</script>") :=
  claim_C3.2.1 scriptDemo "<script>alert(1)</script>" rfl rfl

/-- C7 counterexample: with gp_letter absent the GP card renders the empty
string, not the placeholder glyph — r.get("gp_letter", "") defaults to the
empty string, so safe never sees a None for this field. -/
theorem claim_C7_counterexample :
    (renderObj gpAbsentDemo).isSome = true
    ∧ jget gpAbsentDemo "gp_letter" = none
    ∧ gpSlotOf gpAbsentDemo = ""
    ∧ strContains (gpCardOf gpAbsentDemo) "—" = false :=
  ⟨rfl, rfl, rfl, rfl⟩

/-- C7 (amended): absent-or-null fields render as the placeholder glyph for
hot_thought, maintenance_cycle, safety_behaviours, risk_summary and the four
soap_note sub-fields; gp_letter renders the placeholder only when null — when
absent it renders as the empty string instead. -/
theorem claim_C7 (r : List (String × JValue)) (out : Rendered)
    (h : renderObj r = some out) :
    ((jget r "hot_thought" = none ∨ jget r "hot_thought" = some .null) → out.hotSlot = "—")
    ∧ ((jget r "maintenance_cycle" = none ∨ jget r "maintenance_cycle" = some .null) →
        out.maintSlot = "—")
    ∧ ((jget r "safety_behaviours" = none ∨ jget r "safety_behaviours" = some .null) →
        out.safetySlot = "—")
    ∧ ((jget r "risk_summary" = none ∨ jget r "risk_summary" = some .null) →
        out.riskSummarySlot = "—")
    ∧ (jget r "gp_letter" = some .null → out.gpSlot = "—")
    ∧ (jget r "gp_letter" = none → out.gpSlot = "")
    ∧ (∀ soap, pyGetD r "soap_note" (.jobj []) = .jobj soap →
        (((jget soap "subjective" = none ∨ jget soap "subjective" = some .null) →
            out.soapSubjSlot = "—")
          ∧ ((jget soap "objective" = none ∨ jget soap "objective" = some .null) →
            out.soapObjSlot = "—")
          ∧ ((jget soap "assessment" = none ∨ jget soap "assessment" = some .null) →
            out.soapAssessSlot = "—")
          ∧ ((jget soap "plan" = none ∨ jget soap "plan" = some .null) →
            out.soapPlanSlot = "—"))) := by
  cases hsoap : pyGetD r "soap_note" (.jobj []) with
  | jobj soap0 =>
    simp only [renderObj, hsoap, Option.some.injEq] at h
    subst h
    refine ⟨?_, ?_, ?_, ?_, ?_, ?_, ?_⟩
    · intro hh; rcases hh with hh | hh <;> simp [safe, hh]
    · intro hh; rcases hh with hh | hh <;> simp [safe, hh]
    · intro hh; rcases hh with hh | hh <;> simp [safe, hh]
    · intro hh
      rcases hh with hh | hh <;>
        · show safe (some (pyGetD r "risk_summary" (.jstr "—"))) = "—"
          rw [pyGetD, hh]
          rfl
    · intro hh
      show safe (some (pyGetD r "gp_letter" (.jstr ""))) = "—"
      rw [pyGetD, hh]
      rfl
    · intro hh
      show safe (some (pyGetD r "gp_letter" (.jstr ""))) = ""
      rw [pyGetD, hh]
      rfl
    · intro soap hsoap2
      injection hsoap2 with h2
      subst h2
      refine ⟨?_, ?_, ?_, ?_⟩ <;>
        (intro hh; rcases hh with hh | hh <;> simp [safe, hh])
  | null => simp [renderObj, hsoap] at h
  | jbool b => simp [renderObj, hsoap] at h
  | jstr s0 => simp [renderObj, hsoap] at h
  | jarr xs => simp [renderObj, hsoap] at h

/-- C7 witness: placeholder rendering at a concrete result with null fields
and a null gp_letter. -/
theorem claim_C7_witness :
    nullFieldsOut.hotSlot = "—"
    ∧ nullFieldsOut.gpSlot = "—"
    ∧ nullFieldsOut.soapSubjSlot = "—" := by
  have h := claim_C7 nullFieldsDemo nullFieldsOut rfl
  exact ⟨h.1 (Or.inr rfl), h.2.2.2.2.1 rfl,
    ((h.2.2.2.2.2.2 [("subjective", JValue.null)]) rfl).1 (Or.inr rfl)⟩

/-- C8 counterexample: with risk_content present but null, the banner quote
is the placeholder glyph, not the documented fallback string — r.get returns
the null value, so the fallback default never applies and safe(None) gives
the dash. -/
theorem claim_C8_counterexample :
    jget nullRiskDemo "risk_content" = some .null
    ∧ bannerQuoteOf nullRiskDemo = some "—"
    ∧ strContains ((bannerOf nullRiskDemo).getD "") "Risk phrase not extracted" = false :=
  ⟨rfl, rfl, rfl⟩

/-- C8 (amended): the risk banner is produced iff risk_detected is truthy
(for a boolean field, iff it is true; absent means no banner); the banner
embeds the escaped risk_content when it is a string, the fallback string
exactly when risk_content is absent, and the placeholder glyph when it is
null; the badge is always rendered, driven solely by risk_detected, inside
the risk summary card. -/
theorem claim_C8 (r : List (String × JValue)) (out : Rendered)
    (h : renderObj r = some out) :
    (out.banner.isSome = pyTruthy (jget r "risk_detected"))
    ∧ (∀ b, jget r "risk_detected" = some (.jbool b) → out.banner.isSome = b)
    ∧ (jget r "risk_detected" = none → out.banner = none)
    ∧ (pyTruthy (jget r "risk_detected") = true → jget r "risk_content" = none →
        out.bannerQuoteSlot = some "Risk phrase not extracted")
    ∧ (pyTruthy (jget r "risk_detected") = true → ∀ q, jget r "risk_content" = some (.jstr q) →
        out.bannerQuoteSlot = some (htmlEscape q))
    ∧ (pyTruthy (jget r "risk_detected") = true → jget r "risk_content" = some .null →
        out.bannerQuoteSlot = some "—")
    ∧ (∀ q, out.bannerQuoteSlot = some q → out.banner = some (riskBannerHtml q))
    ∧ (out.riskBadge =
        if pyTruthy (jget r "risk_detected") then badgeRiskHtml else badgeSafeHtml)
    ∧ (out.riskCard = riskCardHtml out.riskBadge out.riskSummarySlot) := by
  cases hsoap : pyGetD r "soap_note" (.jobj []) with
  | jobj soap0 =>
    simp only [renderObj, hsoap, Option.some.injEq] at h
    subst h
    refine ⟨?_, ?_, ?_, ?_, ?_, ?_, ?_, ?_, ?_⟩
    · by_cases hrt : pyTruthy (jget r "risk_detected") = true
      · simp [hrt]
      · rw [Bool.not_eq_true] at hrt
        simp [hrt]
    · intro b hb
      rw [hb]
      cases b <;> simp [pyTruthy]
    · intro hb
      rw [hb]
      simp [pyTruthy]
    · intro hrt habs
      show (if pyTruthy (jget r "risk_detected") = true then
        some (safe (some (pyGetD r "risk_content" (.jstr "Risk phrase not extracted"))))
          else none) = _
      rw [if_pos hrt, pyGetD, habs]
      rfl
    · intro hrt q hq
      show (if pyTruthy (jget r "risk_detected") = true then
        some (safe (some (pyGetD r "risk_content" (.jstr "Risk phrase not extracted"))))
          else none) = _
      rw [if_pos hrt, pyGetD, hq]
      rfl
    · intro hrt hq
      show (if pyTruthy (jget r "risk_detected") = true then
        some (safe (some (pyGetD r "risk_content" (.jstr "Risk phrase not extracted"))))
          else none) = _
      rw [if_pos hrt, pyGetD, hq]
      rfl
    · intro q hq
      by_cases hrt : pyTruthy (jget r "risk_detected") = true
      · simp only [hrt, if_true] at hq ⊢
        simp at hq
        simp [hq]
      · rw [Bool.not_eq_true] at hrt
        simp [hrt] at hq
    · rfl
    · rfl
  | null => simp [renderObj, hsoap] at h
  | jbool b => simp [renderObj, hsoap] at h
  | jstr s0 => simp [renderObj, hsoap] at h
  | jarr xs => simp [renderObj, hsoap] at h

/-- C8 witness: fallback string at a concrete result with risk detected and
risk_content absent. -/
theorem claim_C8_witness :
    fallbackOut.bannerQuoteSlot = some "Risk phrase not extracted" :=
  (claim_C8 fallbackDemo fallbackOut rfl).2.2.2.1 rfl rfl
